import Mathlib

/-!
Verification development for the QUANTUM-LEAP repository.

The core under scrutiny is the raw-PCM audio decoding pipeline in
src/App.tsx (function decodeAudioData, lines 196-213), the audio
generation wrapper generateLeapAudio (lines 286-312), and the
orchestration handleLeap (lines 18-74).

Embedding conventions:
* A Uint8Array is a list of naturals (each entry is reduced mod 256 at
  the point of 16-bit reinterpretation, exactly where a typed array
  would store byte values).
* JavaScript 64-bit floats are modelled by rationals.  Every number the
  decoder produces is an integer in [-32768, 32767] divided by 32768;
  such values, and their storage in a Float32Array, are exact in IEEE
  arithmetic, so the rational model is faithful.
* A thrown exception is modelled by Option.none.
-/

/-- Sign reinterpretation of a 16-bit word: values at or above 2^15 wrap
to negatives, as in an Int16Array element. -/
def toSigned16 (u : Nat) : Int :=
  if u % 65536 < 32768 then (u % 65536 : Int) else (u % 65536 : Int) - 65536

/-- Sign reinterpretation of a single byte (used only to state the
little-endian decomposition of a sample into its two bytes). -/
def toSigned8 (b : Nat) : Int :=
  if b % 256 < 128 then (b % 256 : Int) else (b % 256 : Int) - 256

/-- The 16-bit word formed from two consecutive bytes of the underlying
buffer.  ECMA-262 reads typed-array elements with the byte order of the
host agent (GetValueFromBuffer with the agent record isLittleEndian
flag), so the pairing depends on the host: low byte first on a
little-endian host, high byte first on a big-endian one. -/
def u16OfBytes (hostLE : Bool) (b0 b1 : Nat) : Nat :=
  if hostLE then b0 % 256 + 256 * (b1 % 256) else b1 % 256 + 256 * (b0 % 256)

/-- The element sequence of `new Int16Array(data.buffer)` (src/App.tsx
line 202) on a host with the given byte order: consecutive byte pairs
become signed 16-bit values.  (The constructor itself rejects an
odd-length buffer; that check is made in `decodeAudioDataOn` below, so
this function is only ever used on even-length data there.) -/
def int16ValuesOf (hostLE : Bool) : List Nat → List Int
  | b0 :: b1 :: rest => toSigned16 (u16OfBytes hostLE b0 b1) :: int16ValuesOf hostLE rest
  | _ => []

/-- The output entity of the decoder: the sample rate carried through as
metadata, and one list of normalized samples per channel (the
AudioBuffer returned by ctx.createBuffer and filled via
getChannelData). -/
structure AudioBuffer where
  sampleRate : Nat
  channelData : List (List ℚ)
deriving DecidableEq

/-- Per-sample normalization from src/App.tsx line 209:
`dataInt16[i * numChannels + channel] / 32768.0`. -/
def normalizeSample (s : Int) : ℚ := (s : ℚ) / 32768

/-- The sample-rate validation performed by ctx.createBuffer: the Web
Audio specification mandates a NotSupportedError when the sample rate
is zero, negative, or outside the supported range, and requires every
implementation to support at least 8000 to 96000 Hz.  The supported
range is implementation-defined beyond that mandated minimum; the model
fixes it at the minimum, so a rate this predicate accepts is accepted
by every conforming implementation, and rate 0 (used as the concrete
failing rate below) is rejected by every one. -/
def sampleRateSupported (sr : Nat) : Bool :=
  decide (8000 ≤ sr) && decide (sr ≤ 96000)

/-- Shallow embedding of decodeAudioData (src/App.tsx lines 196-213),
with the host byte order of the Int16Array reinterpretation made
explicit.  Behaviour traced from the source and the platform semantics:

* `new Int16Array(data.buffer)` throws a RangeError when the buffer
  byte length is odd (ECMA-262 AllocateTypedArrayBuffer); modelled as
  `none`.
* `frameCount = dataInt16.length / numChannels` is IEEE division; the
  WebIDL unsigned-long conversion inside `ctx.createBuffer` truncates
  it, so the allocated buffer has `floor(sampleCount / numChannels)`
  frames.  createBuffer throws NotSupportedError when the channel count
  or the truncated length is zero, or when the sample rate is outside
  the supported range; all three modelled as `none`.
* The write loop runs while `i < frameCount` with the untruncated
  bound, but every iteration at an index at or beyond the truncated
  frame count stores out of the bounds of the Float32Array returned by
  getChannelData, which is a silent no-op; hence exactly the indices
  below the truncated frame count appear in the output, and for those
  the read index `i * numChannels + channel` is within dataInt16. -/
def decodeAudioDataOn (hostLE : Bool) (data : List Nat) (sampleRate numChannels : Nat) :
    Option AudioBuffer :=
  if data.length % 2 ≠ 0 then none
  else
    let dataInt16 := int16ValuesOf hostLE data
    let frameCount := dataInt16.length / numChannels
    if numChannels = 0 ∨ frameCount = 0 ∨ sampleRateSupported sampleRate = false then none
    else some {
      sampleRate := sampleRate,
      channelData := (List.range numChannels).map fun channel =>
        (List.range frameCount).map fun i =>
          normalizeSample (dataInt16.getD (i * numChannels + channel) 0) }

/-- The decoder as it runs on a little-endian host (every platform the
surrounding browser application actually targets). -/
def decodeAudioData (data : List Nat) (sampleRate numChannels : Nat) : Option AudioBuffer :=
  decodeAudioDataOn true data sampleRate numChannels

/-- Modelled from the spec: the repository contains no PCM encoder; the
round-trip property in section 8 of the spec defines encoding as the
inverse of the normalization — multiply by 32768 and quantize to an
integer (floor quantization). -/
def encodePCM16 (f : ℚ) : Int := ⌊f * 32768⌋

/-!
App-layer model: the orchestration in src/App.tsx.

JavaScript strings are modelled through their character lists; the two
string operations the source uses (String.prototype.trim and
String.prototype.toLowerCase, on the ASCII topics involved) are given
list-level embeddings below.  The three network collaborators
(generateManifest, generateLeapImage, generateLeapAudio) are
nondeterministic at this layer, so their settled outcomes are passed to
handleLeap as explicit Except arguments: Except.ok is a fulfilled
promise, Except.error a rejected one. Promise.allSettled never rejects,
which is why both media outcomes reach the final state transition.
-/

/-- Embedding of String.prototype.toLowerCase for the ASCII range. -/
def jsToLower (s : String) : String := ⟨s.data.map Char.toLower⟩

/-- The WhiteSpace and LineTerminator characters stripped by
String.prototype.trim (ECMA-262): tab, vertical tab, form feed, space,
no-break space, byte-order mark, the Unicode space separators, and the
four line terminators. -/
def jsWhitespace (c : Char) : Bool :=
  c = '\t' || c = '\x0B' || c = '\x0C' || c = ' ' || c = '\u00A0' || c = '\uFEFF' ||
  c = '\u1680' || ('\u2000' ≤ c && c ≤ '\u200A') || c = '\u202F' || c = '\u205F' ||
  c = '\u3000' || c = '\n' || c = '\r' || c = '\u2028' || c = '\u2029'

/-- Embedding of String.prototype.trim: strip whitespace from both
ends. -/
def jsTrim (s : String) : String :=
  ⟨((s.data.dropWhile jsWhitespace).reverse.dropWhile jsWhitespace).reverse⟩

/-- Substring occurrence test on character lists (the recursion tries
every suffix). -/
def containsSub (pat : List Char) : List Char → Bool
  | [] => pat.isEmpty
  | c :: rest => pat.isPrefixOf (c :: rest) || containsSub pat rest

/-- Embedding of String.prototype.includes. -/
def strIncludes (s pat : String) : Bool := containsSub pat.data s.data

/-- The status union of LeapState (src/types.ts). -/
inductive Status
  | idle
  | analyzing
  | generatingMedia
  | complete
  | error
deriving DecidableEq

/-- ChartDataPoint (src/types.ts): label, numeric value, optional
unit. -/
structure ChartDataPoint where
  label : String
  value : ℚ
  unit : Option String
deriving DecidableEq

/-- LeapManifest (src/types.ts). -/
structure LeapManifest where
  summary : String
  chartTitle : String
  chartData : List ChartDataPoint
  imagePrompt : String
  audioScript : String
  colors : List String
deriving DecidableEq

/-- LeapState (src/types.ts): null fields become none, the optional
error string an Option. -/
structure LeapState where
  status : Status
  manifest : Option LeapManifest
  imageData : Option String
  audioBuffer : Option AudioBuffer
  error : Option String
deriving DecidableEq

/-- status === fulfilled on a settled promise outcome. -/
def isFulfilled {ε α : Type} : Except ε α → Bool
  | Except.ok _ => true
  | Except.error _ => false

/-- status === rejected on a settled promise outcome. -/
def isRejected {ε α : Type} : Except ε α → Bool
  | Except.ok _ => false
  | Except.error _ => true

/-- The error message set by the catch block of handleLeap
(src/App.tsx line 71). -/
def criticalFailureMsg : String :=
  "CRITICAL FAILURE: Unable to bridge the quantum gap. Try a different topic."

/-- The error message recorded when one of the media tasks is rejected
(src/App.tsx line 62). -/
def mediaFailureMsg : String :=
  "Partial system failure. Some media elements could not be synthesized."

/-- Shallow embedding of handleLeap (src/App.tsx lines 18-74) as a
state transformer.  Inputs: the topic field, the current LeapState, the
current showGate flag, and the settled outcomes of the three
collaborator calls.  Output: the final LeapState, showGate flag and
topic field after the run.  Control flow traced from the source:

* a blank (all-whitespace) topic returns immediately with nothing
  changed;
* a topic whose lowercase form includes aether or event opens the gate
  and clears the topic, with no state change and no collaborator call;
* otherwise the state is reset, generateManifest is awaited; a
  rejection lands in the catch block (status error, critical message);
* on success the two media tasks are joined with Promise.allSettled,
  and the final state is complete, with each media field populated only
  from a fulfilled outcome and the partial-failure message recorded
  when either was rejected. -/
def handleLeap (topic : String) (st : LeapState) (showGate : Bool)
    (manifestR : Except Unit LeapManifest)
    (imgR : Except Unit String)
    (audR : Except Unit AudioBuffer) : LeapState × Bool × String :=
  if jsTrim topic = ("") then (st, showGate, topic)
  else if strIncludes (jsToLower topic) ("aether") || strIncludes (jsToLower topic) ("event") then
    (st, true, "")
  else
    let reset : LeapState := ⟨Status.analyzing, none, none, none, none⟩
    match manifestR with
    | Except.error _ =>
        ({ reset with status := Status.error, error := some criticalFailureMsg },
          showGate, topic)
    | Except.ok manifest =>
        let afterManifest :=
          { reset with status := Status.generatingMedia, manifest := some manifest }
        ({ afterManifest with
            status := Status.complete,
            imageData := match imgR with
              | Except.ok d => some d
              | Except.error _ => none,
            audioBuffer := match audR with
              | Except.ok b => some b
              | Except.error _ => none,
            error := if isRejected imgR || isRejected audR then some mediaFailureMsg
              else none },
          showGate, topic)

/-- Shallow embedding of generateLeapAudio (src/App.tsx lines 286-312).
The network reply and the base64 pre-step are abstracted into the
argument: none when the reply carries no inline audio data (the
function then throws No audio generated), some bytes for the byte
sequence handed to decodeAudioData.  The call fixes sampleRate 24000
and a single channel, as the source does; a decoding exception
propagates as a rejection of the returned promise. -/
def generateLeapAudio (audioData : Option (List Nat)) : Except Unit AudioBuffer :=
  match audioData with
  | none => Except.error ()
  | some bytes =>
      match decodeAudioData bytes 24000 1 with
      | none => Except.error ()
      | some buf => Except.ok buf

/-!
Helper lemmas about the decoder embedding.
-/

/-- Number of 16-bit samples obtained from a byte list: one per full
byte pair. -/
theorem int16ValuesOf_length (hostLE : Bool) :
    ∀ bs : List Nat, (int16ValuesOf hostLE bs).length = bs.length / 2
  | [] => rfl
  | [_] => by simp [int16ValuesOf]
  | _ :: _ :: rest => by
      simp only [int16ValuesOf, List.length_cons]
      rw [int16ValuesOf_length hostLE rest]
      omega

/-- A signed 16-bit reinterpretation always lands in [-32768, 32767]. -/
theorem toSigned16_bounds (u : Nat) : -32768 ≤ toSigned16 u ∧ toSigned16 u ≤ 32767 := by
  unfold toSigned16
  split <;> omega

/-- Reading the sample list at any index (in range or not, thanks to the
default 0) yields a value in [-32768, 32767]. -/
theorem int16_getD_bounds (hostLE : Bool) :
    ∀ (bs : List Nat) (k : Nat),
      -32768 ≤ (int16ValuesOf hostLE bs).getD k 0 ∧
        (int16ValuesOf hostLE bs).getD k 0 ≤ 32767
  | [], _ => by simp [int16ValuesOf]
  | [_], _ => by simp [int16ValuesOf]
  | _ :: _ :: _, 0 => by
      simpa [int16ValuesOf] using toSigned16_bounds _
  | _ :: _ :: rest, (k + 1) => by
      simpa [int16ValuesOf] using int16_getD_bounds hostLE rest k

/-- Reading a mapped range at an index below the bound evaluates the
mapped function there. -/
theorem getD_map_range {α : Type} (f : Nat → α) (n k : Nat) (d : α) (h : k < n) :
    ((List.range n).map f).getD k d = f k := by
  have hlen : k < ((List.range n).map f).length := by simpa using h
  rw [List.getD_eq_getElem _ _ hlen]
  simp

/-- On a little-endian host a 16-bit element splits into its low byte
plus 256 times the sign-reinterpreted high byte. -/
theorem toSigned16_u16_true (b0 b1 : Nat) (h0 : b0 < 256) :
    toSigned16 (u16OfBytes true b0 b1) = (b0 : Int) + 256 * toSigned8 b1 := by
  unfold toSigned16 u16OfBytes toSigned8
  simp only [if_true]
  split <;> split <;> omega

/-- Sample k of the little-endian reinterpretation is determined by
bytes 2k and 2k+1, low byte first. -/
theorem int16ValuesOf_true_getD :
    ∀ (data : List Nat), (∀ b ∈ data, b < 256) → ∀ k : Nat, 2 * k + 1 < data.length →
      (int16ValuesOf true data).getD k 0 =
        (data.getD (2 * k) 0 : Int) + 256 * toSigned8 (data.getD (2 * k + 1) 0)
  | [], _, _, hk => by simp at hk
  | [_], _, k, hk => by simp at hk
  | b0 :: b1 :: rest, hb, 0, _ => by
      have h0 : b0 < 256 := hb b0 (by simp)
      simpa [int16ValuesOf] using toSigned16_u16_true b0 b1 h0
  | b0 :: b1 :: rest, hb, (k + 1), hk => by
      have hrest : ∀ b ∈ rest, b < 256 := fun b h => hb b (by simp [h])
      have hk' : 2 * k + 1 < rest.length := by
        simp only [List.length_cons] at hk
        omega
      have ih := int16ValuesOf_true_getD rest hrest k hk'
      have e1 : 2 * (k + 1) = 2 * k + 1 + 1 := by ring
      have e2 : 2 * (k + 1) + 1 = (2 * k + 1) + 1 + 1 := by ring
      simp only [int16ValuesOf, List.getD_cons_succ, e1, e2]
      exact ih

/-- Closed-form evaluation of the decoder: it succeeds exactly when the
byte length is even and the truncated frame count is positive, and then
returns the de-interleaved, normalized channel data. -/
theorem decode_eval (hostLE : Bool) (data : List Nat) (sr nc : Nat) :
    decodeAudioDataOn hostLE data sr nc =
      if data.length % 2 = 0 ∧ nc ≠ 0 ∧ data.length / 2 / nc ≠ 0 ∧
          sampleRateSupported sr = true then
        some ⟨sr, (List.range nc).map fun channel =>
          (List.range (data.length / 2 / nc)).map fun i =>
            normalizeSample ((int16ValuesOf hostLE data).getD (i * nc + channel) 0)⟩
      else none := by
  by_cases h2 : data.length % 2 = 0
  · by_cases hnc : nc = 0
    · simp [decodeAudioDataOn, h2, hnc]
    · by_cases hfc : data.length / 2 / nc = 0
      · simp [decodeAudioDataOn, h2, hnc, hfc, int16ValuesOf_length]
      · cases hsr : sampleRateSupported sr with
        | false => simp [decodeAudioDataOn, h2, hnc, hfc, hsr, int16ValuesOf_length]
        | true => simp [decodeAudioDataOn, h2, hnc, hfc, hsr, int16ValuesOf_length]
  · simp [decodeAudioDataOn, h2]

/-!
Claim theorems.
-/

/-- Claim C1: for a byte input whose 16-bit sample count is divisible
by the channel count, every entry of the decoded output de-interleaves
exactly: channel c, frame i holds raw sample (i * channelCount + c)
divided by 32768, for every channel below channelCount and every frame
below frameCount — so there is no cross-channel data leakage for any
channel count. -/
theorem decode_deinterleave_exact (data : List Nat) (sr nc : Nat) (buf : AudioBuffer)
    (_h2 : data.length % 2 = 0) (_hdiv : (data.length / 2) % nc = 0)
    (hdec : decodeAudioData data sr nc = some buf) :
    buf.channelData.length = nc ∧
    ∀ c, c < nc →
      (buf.channelData.getD c []).length = data.length / 2 / nc ∧
      ∀ i, i < data.length / 2 / nc →
        (buf.channelData.getD c []).getD i 0 =
          ((int16ValuesOf true data).getD (i * nc + c) 0 : ℚ) / 32768 := by
  rw [decodeAudioData, decode_eval] at hdec
  by_cases hcond : data.length % 2 = 0 ∧ nc ≠ 0 ∧ data.length / 2 / nc ≠ 0 ∧
    sampleRateSupported sr = true
  · rw [if_pos hcond] at hdec
    obtain rfl := Option.some.inj hdec
    refine ⟨by simp, ?_⟩
    intro c hc
    constructor
    · rw [getD_map_range _ _ _ _ hc]
      simp
    · intro i hi
      rw [getD_map_range _ _ _ _ hc, getD_map_range _ _ _ _ hi, normalizeSample]
  · rw [if_neg hcond] at hdec
    exact absurd hdec (by simp)

/-- Claim C1 witness: stereo input, samples [1, 2, 3, 4]; channel 0
receives [1/32768, 3/32768] and channel 1 receives [2/32768,
4/32768]. -/
theorem decode_deinterleave_exact_witness :
    (AudioBuffer.mk 24000 [[1/32768, 3/32768], [2/32768, 4/32768]]).channelData.length = 2 ∧
    ∀ c, c < 2 →
      ((AudioBuffer.mk 24000 [[1/32768, 3/32768],
          [2/32768, 4/32768]]).channelData.getD c []).length =
        ([1, 0, 2, 0, 3, 0, 4, 0] : List Nat).length / 2 / 2 ∧
      ∀ i, i < ([1, 0, 2, 0, 3, 0, 4, 0] : List Nat).length / 2 / 2 →
        (((AudioBuffer.mk 24000 [[1/32768, 3/32768],
            [2/32768, 4/32768]]).channelData.getD c []).getD i 0) =
          ((int16ValuesOf true [1, 0, 2, 0, 3, 0, 4, 0]).getD (i * 2 + c) 0 : ℚ) / 32768 :=
  decode_deinterleave_exact [1, 0, 2, 0, 3, 0, 4, 0] 24000 2
    (AudioBuffer.mk 24000 [[1/32768, 3/32768], [2/32768, 4/32768]])
    (by decide) (by decide)
    (by simp [decodeAudioData, decodeAudioDataOn, sampleRateSupported, int16ValuesOf,
      u16OfBytes, toSigned16, normalizeSample, List.range_succ])

/-- Claim C3 counterexample: on the two-byte input [1, 0] the
Int16Array reinterpretation yields sample 1 on a little-endian host but
sample 256 on a big-endian host, so the decoded result is not
independent of the host byte order. -/
theorem decode_hostOrder_dependence :
    decodeAudioDataOn false [1, 0] 24000 1 ≠ decodeAudioDataOn true [1, 0] 24000 1 := by
  simp [decodeAudioDataOn, sampleRateSupported, int16ValuesOf, u16OfBytes, toSigned16,
    normalizeSample, List.range_succ]
  norm_num

/-- Claim C3 (amended): the decoder reinterprets consecutive byte pairs
with the byte order of the host; on a little-endian host (which the
program assumes, and which decodeAudioData fixes) raw sample k has the
low-byte-first value bytes[2k] + 256 * toSigned(bytes[2k+1]). -/
theorem decode_littleEndian_onLEHost (data : List Nat) (hbytes : ∀ b ∈ data, b < 256) :
    (∀ sr nc, decodeAudioData data sr nc = decodeAudioDataOn true data sr nc) ∧
    ∀ k, 2 * k + 1 < data.length →
      (int16ValuesOf true data).getD k 0 =
        (data.getD (2 * k) 0 : Int) + 256 * toSigned8 (data.getD (2 * k + 1) 0) :=
  ⟨fun _ _ => rfl, int16ValuesOf_true_getD data hbytes⟩

/-- Claim C3 witness: on the bytes [1, 0, 0, 128], sample 1 is
0 + 256 * toSigned(128) = -32768, low byte first. -/
theorem decode_littleEndian_onLEHost_witness :
    (int16ValuesOf true [1, 0, 0, 128]).getD 1 0 =
      (([1, 0, 0, 128] : List Nat).getD (2 * 1) 0 : Int) +
        256 * toSigned8 (([1, 0, 0, 128] : List Nat).getD (2 * 1 + 1) 0) :=
  (decode_littleEndian_onLEHost [1, 0, 0, 128] (by decide)).2 1 (by decide)

/-- Claim C4: normalization divides by 32768, so -32768 maps exactly to
-1 and 32767 maps to 32767/32768; concretely, the mono input with
samples [0, 16384, -32768, 32767] decodes to one channel of four frames
with values [0, 1/2, -1, 32767/32768]. -/
theorem normalize_asymmetric_range :
    normalizeSample (-32768) = -1 ∧ normalizeSample 32767 = 32767 / 32768 ∧
    decodeAudioData [0, 0, 0, 64, 0, 128, 255, 127] 24000 1 =
      some ⟨24000, [[0, 1/2, -1, 32767/32768]]⟩ := by
  refine ⟨by norm_num [normalizeSample], by norm_num [normalizeSample], ?_⟩
  simp [decodeAudioData, decodeAudioDataOn, sampleRateSupported, int16ValuesOf, u16OfBytes,
    toSigned16, normalizeSample, List.range_succ]
  norm_num

/-- Claim C5: whenever the decoder produces an output buffer, every
sample value in every channel lies in the half-open interval from -1
(inclusive) to 1 (exclusive). -/
theorem decode_output_range (data : List Nat) (sr nc : Nat) (buf : AudioBuffer)
    (hdec : decodeAudioData data sr nc = some buf) :
    ∀ ch ∈ buf.channelData, ∀ v ∈ ch, -1 ≤ v ∧ v < 1 := by
  rw [decodeAudioData, decode_eval] at hdec
  by_cases hcond : data.length % 2 = 0 ∧ nc ≠ 0 ∧ data.length / 2 / nc ≠ 0 ∧
    sampleRateSupported sr = true
  · rw [if_pos hcond] at hdec
    obtain rfl := Option.some.inj hdec
    intro ch hch v hv
    simp only [List.mem_map] at hch
    obtain ⟨c, _, rfl⟩ := hch
    simp only [List.mem_map] at hv
    obtain ⟨i, _, rfl⟩ := hv
    have hb := int16_getD_bounds true data (i * nc + c)
    rw [normalizeSample]
    have hlow : (-32768 : ℚ) ≤ ((int16ValuesOf true data).getD (i * nc + c) 0 : ℚ) := by
      exact_mod_cast hb.1
    have hhigh : ((int16ValuesOf true data).getD (i * nc + c) 0 : ℚ) ≤ 32767 := by
      exact_mod_cast hb.2
    constructor
    · rw [le_div_iff₀ (by norm_num : (0 : ℚ) < 32768)]
      linarith
    · rw [div_lt_one (by norm_num : (0 : ℚ) < 32768)]
      linarith
  · rw [if_neg hcond] at hdec
    exact absurd hdec (by simp)

/-- Claim C5 witness: the decode of the single sample 16384 yields the
one-channel buffer [[1/2]], whose values the theorem bounds. -/
theorem decode_output_range_witness : -1 ≤ (1/2 : ℚ) ∧ (1/2 : ℚ) < 1 :=
  decode_output_range [0, 64] 24000 1 (AudioBuffer.mk 24000 [[1/2]])
    (by simp [decodeAudioData, decodeAudioDataOn, sampleRateSupported, int16ValuesOf,
      u16OfBytes, toSigned16, normalizeSample, List.range_succ]
        norm_num)
    [1/2] (by simp) (1/2) (by simp)

/-- Claim C6: for a float sample f in the interval from -1 (inclusive)
to 1 (exclusive), encoding by the inverse of the normalization
(multiply by 32768, quantize to an integer) yields a valid 16-bit
sample, and decoding it again reproduces f within quantization error
1/32768. -/
theorem roundTrip_quantization (f : ℚ) (h1 : -1 ≤ f) (h2 : f < 1) :
    (-32768 ≤ encodePCM16 f ∧ encodePCM16 f ≤ 32767) ∧
      |normalizeSample (encodePCM16 f) - f| ≤ 1 / 32768 := by
  have hfl : ((⌊f * 32768⌋ : Int) : ℚ) ≤ f * 32768 := Int.floor_le _
  have hfl2 : f * 32768 < (⌊f * 32768⌋ : ℚ) + 1 := Int.lt_floor_add_one _
  have hlb : (-32768 : Int) ≤ ⌊f * 32768⌋ := by
    apply Int.le_floor.mpr
    push_cast
    linarith
  have hub : ⌊f * 32768⌋ ≤ 32767 := by
    have : ⌊f * 32768⌋ < 32768 := by
      apply Int.floor_lt.mpr
      push_cast
      linarith
    omega
  refine ⟨⟨hlb, hub⟩, ?_⟩
  have key : (⌊f * 32768⌋ : ℚ) / 32768 - f = ((⌊f * 32768⌋ : ℚ) - f * 32768) / 32768 := by
    ring
  rw [encodePCM16, normalizeSample, key, abs_div]
  rw [show |(32768 : ℚ)| = 32768 from by norm_num]
  rw [div_le_div_iff₀ (by norm_num : (0 : ℚ) < 32768) (by norm_num : (0 : ℚ) < 32768)]
  have habs : |(⌊f * 32768⌋ : ℚ) - f * 32768| ≤ 1 :=
    abs_le.mpr ⟨by linarith, by linarith⟩
  linarith

/-- Claim C6 witness: the round trip at f = 1/3. -/
theorem roundTrip_quantization_witness :
    (-32768 ≤ encodePCM16 (1/3) ∧ encodePCM16 (1/3) ≤ 32767) ∧
      |normalizeSample (encodePCM16 (1/3)) - 1/3| ≤ 1 / 32768 :=
  roundTrip_quantization (1/3) (by norm_num) (by norm_num)

/-- Claim C7 counterexample: the same two bytes decode at 24000 Hz but
the createBuffer call throws NotSupportedError at sample rate 0 (the
Web Audio specification rejects a zero rate in every implementation),
so two runs differing only in sampleRate do not produce identical
per-channel sample data. -/
theorem sampleRate_influences_success :
    (decodeAudioData [0, 64] 24000 1).map AudioBuffer.channelData ≠
      (decodeAudioData [0, 64] 0 1).map AudioBuffer.channelData := by
  simp [decodeAudioData, decodeAudioDataOn, sampleRateSupported, int16ValuesOf, u16OfBytes,
    toSigned16, normalizeSample, List.range_succ]

/-- Claim C7 (amended): among sample rates the audio context supports,
the sampleRate argument never influences the decoded sample data — two
runs differing only in (supported) sampleRate agree on the channel
data, also when both fail — and a successful run carries the given
sampleRate through unchanged as metadata.  An unsupported sampleRate
(zero or out of range) instead makes createBuffer throw, so sampleRate
does influence whether an output is produced at all. -/
theorem sampleRate_noninterference (data : List Nat) (nc sr1 sr2 : Nat)
    (hsr1 : sampleRateSupported sr1 = true) (hsr2 : sampleRateSupported sr2 = true) :
    ((decodeAudioData data sr1 nc).map AudioBuffer.channelData =
      (decodeAudioData data sr2 nc).map AudioBuffer.channelData) ∧
    ∀ buf, decodeAudioData data sr1 nc = some buf → buf.sampleRate = sr1 := by
  constructor
  · rw [decodeAudioData, decodeAudioData, decode_eval, decode_eval]
    simp only [hsr1, hsr2]
    split <;> simp
  · intro buf h
    rw [decodeAudioData, decode_eval] at h
    by_cases hcond : data.length % 2 = 0 ∧ nc ≠ 0 ∧ data.length / 2 / nc ≠ 0 ∧
      sampleRateSupported sr1 = true
    · rw [if_pos hcond] at h
      obtain rfl := Option.some.inj h
      rfl
    · rw [if_neg hcond] at h
      exact absurd h (by simp)

/-- Claim C7 witness: decoding the same two bytes at 8000 Hz and 48000
Hz (both supported rates) gives identical channel data, and the 8000 Hz
run reports 8000. -/
theorem sampleRate_noninterference_witness :
    ((decodeAudioData [0, 64] 8000 1).map AudioBuffer.channelData =
      (decodeAudioData [0, 64] 48000 1).map AudioBuffer.channelData) ∧
    (AudioBuffer.mk 8000 [[1/2]]).sampleRate = 8000 :=
  ⟨(sampleRate_noninterference [0, 64] 1 8000 48000 (by decide) (by decide)).1,
   (sampleRate_noninterference [0, 64] 1 8000 48000 (by decide) (by decide)).2
     (AudioBuffer.mk 8000 [[1/2]])
     (by simp [decodeAudioData, decodeAudioDataOn, sampleRateSupported, int16ValuesOf,
       u16OfBytes, toSigned16, normalizeSample, List.range_succ]
         norm_num)⟩

/-- Claim C8: when the manifest step succeeds, a rejection of the image
task or the audio task (or both) does not discard the manifest: the
final state is complete, keeps the manifest, sets each rejected media
field to null, and records only the partial-failure message; no media
rejection sends the run into the catch branch. -/
theorem mediaFailure_keeps_manifest (topic : String) (st : LeapState) (sg : Bool)
    (m : LeapManifest) (imgR : Except Unit String) (audR : Except Unit AudioBuffer)
    (hne : jsTrim topic ≠ "")
    (hg1 : strIncludes (jsToLower topic) ("aether") = false)
    (hg2 : strIncludes (jsToLower topic) ("event") = false)
    (hfail : isRejected imgR = true ∨ isRejected audR = true) :
    ((handleLeap topic st sg (Except.ok m) imgR audR).1).status = Status.complete ∧
    ((handleLeap topic st sg (Except.ok m) imgR audR).1).manifest = some m ∧
    (isRejected imgR = true →
      ((handleLeap topic st sg (Except.ok m) imgR audR).1).imageData = none) ∧
    (isRejected audR = true →
      ((handleLeap topic st sg (Except.ok m) imgR audR).1).audioBuffer = none) ∧
    ((handleLeap topic st sg (Except.ok m) imgR audR).1).error = some mediaFailureMsg := by
  cases imgR <;> cases audR <;>
    simp_all [handleLeap, isRejected]

/-- Claim C8 witness: both media tasks rejected after a successful
manifest; the final state stays complete with the manifest kept. -/
theorem mediaFailure_keeps_manifest_witness :
    ((handleLeap ("Black Holes") (LeapState.mk Status.idle none none none none) false
        (Except.ok (LeapManifest.mk ("s") ("t") [] ("i") ("a") []))
        (Except.error ()) (Except.error ())).1).status = Status.complete ∧
    ((handleLeap ("Black Holes") (LeapState.mk Status.idle none none none none) false
        (Except.ok (LeapManifest.mk ("s") ("t") [] ("i") ("a") []))
        (Except.error ()) (Except.error ())).1).manifest =
      some (LeapManifest.mk ("s") ("t") [] ("i") ("a") []) ∧
    (isRejected (Except.error () : Except Unit String) = true →
      ((handleLeap ("Black Holes") (LeapState.mk Status.idle none none none none) false
          (Except.ok (LeapManifest.mk ("s") ("t") [] ("i") ("a") []))
          (Except.error ()) (Except.error ())).1).imageData = none) ∧
    (isRejected (Except.error () : Except Unit AudioBuffer) = true →
      ((handleLeap ("Black Holes") (LeapState.mk Status.idle none none none none) false
          (Except.ok (LeapManifest.mk ("s") ("t") [] ("i") ("a") []))
          (Except.error ()) (Except.error ())).1).audioBuffer = none) ∧
    ((handleLeap ("Black Holes") (LeapState.mk Status.idle none none none none) false
        (Except.ok (LeapManifest.mk ("s") ("t") [] ("i") ("a") []))
        (Except.error ()) (Except.error ())).1).error = some mediaFailureMsg :=
  mediaFailure_keeps_manifest ("Black Holes") (LeapState.mk Status.idle none none none none)
    false (LeapManifest.mk ("s") ("t") [] ("i") ("a") [])
    (Except.error ()) (Except.error ())
    (by decide) (by decide) (by decide) (Or.inl (by decide))

/-- Claim C9: every audio buffer produced by generateLeapAudio is mono
at 24000 Hz — the source invokes the decoder with sampleRate 24000 and
one channel, so the multi-channel path is never exercised at
runtime. -/
theorem generateLeapAudio_mono_24000 (audioData : Option (List Nat)) (buf : AudioBuffer)
    (h : generateLeapAudio audioData = Except.ok buf) :
    buf.sampleRate = 24000 ∧ buf.channelData.length = 1 := by
  cases audioData with
  | none => simp [generateLeapAudio] at h
  | some bytes =>
    cases hd : decodeAudioData bytes 24000 1 with
    | none => simp [generateLeapAudio, hd] at h
    | some b =>
      have hb : b = buf := by
        simpa [generateLeapAudio, hd] using h
      subst hb
      rw [decodeAudioData, decode_eval] at hd
      by_cases hcond : bytes.length % 2 = 0 ∧ 1 ≠ 0 ∧ bytes.length / 2 / 1 ≠ 0 ∧
        sampleRateSupported 24000 = true
      · rw [if_pos hcond] at hd
        obtain rfl := Option.some.inj hd
        exact ⟨rfl, by simp⟩
      · rw [if_neg hcond] at hd
        exact absurd hd (by simp)

/-- Claim C9 witness: two zero bytes decode through generateLeapAudio
to a mono buffer at 24000 Hz. -/
theorem generateLeapAudio_mono_24000_witness :
    (AudioBuffer.mk 24000 [[0]]).sampleRate = 24000 ∧
      (AudioBuffer.mk 24000 [[0]]).channelData.length = 1 :=
  generateLeapAudio_mono_24000 (some [0, 0]) (AudioBuffer.mk 24000 [[0]])
    (by simp [generateLeapAudio, decodeAudioData, decodeAudioDataOn, sampleRateSupported,
      int16ValuesOf, u16OfBytes, toSigned16, normalizeSample, List.range_succ])

/-- Claim C10: a non-blank topic whose lowercase form includes aether
or event makes handleLeap open the gate and clear the topic, leaving
the analysis state untouched and consulting no collaborator (the result
does not depend on any of the three outcomes). -/
theorem gate_topic_bypasses_analysis (topic : String) (st : LeapState) (sg : Bool)
    (manifestR : Except Unit LeapManifest) (imgR : Except Unit String)
    (audR : Except Unit AudioBuffer)
    (hne : jsTrim topic ≠ "")
    (hgate : strIncludes (jsToLower topic) ("aether") = true ∨
      strIncludes (jsToLower topic) ("event") = true) :
    handleLeap topic st sg manifestR imgR audR = (st, true, "") := by
  rcases hgate with h | h <;> simp [handleLeap, hne, h]

/-- Claim C10 witness: the ordinary topic Event horizon triggers the
gate and is never analyzed. -/
theorem gate_topic_bypasses_analysis_witness :
    handleLeap ("Event horizon") (LeapState.mk Status.idle none none none none) false
      (Except.error ()) (Except.error ()) (Except.error ()) =
      ((LeapState.mk Status.idle none none none none), true, "") :=
  gate_topic_bypasses_analysis ("Event horizon")
    (LeapState.mk Status.idle none none none none) false
    (Except.error ()) (Except.error ()) (Except.error ())
    (by decide) (Or.inr (by decide))
